import Mathlib

/-!
Shallow embedding of the tool-calling orchestration engine of
`backend/ai_generator.py` (class `AIGenerator`).

The remote model endpoint is represented by an oracle
`model : Nat → ModelResponse` giving the parsed body of the i-th
`invoke_model` call of the run (0-indexed).  A run records, besides the
returned string, the request body built for every endpoint call and every
invocation of `tool_manager.execute_tool`, so that the call-count,
message-history and tool-execution claims can be stated as properties of
the recorded trace.

A tool manager is a function returning `Except String String`; an
`Except.error e` value models a Python exception whose `str` is `e`.
The value `none` for the result of a run models an uncaught `KeyError`
raised by `response_body["content"][0]["text"]` when the first content
block carries no `text` field.
-/

namespace Rag

/-- Content block of a Bedrock message, the tagged union of the data model. -/
inductive ContentBlock where
  | text (text : String)
  | toolUse (id : String) (name : String) (input : List (String × String))
  | toolResult (tool_use_id : String) (content : String)
deriving DecidableEq

/-- Content of one message: either a plain string (the seed user message)
or a list of content blocks. -/
inductive MsgContent where
  | str (s : String)
  | blocks (bs : List ContentBlock)
deriving DecidableEq

/-- One entry of the `messages` list of a request body. -/
structure Message where
  role : String
  content : MsgContent
deriving DecidableEq

/-- Parsed body of one endpoint response. -/
structure ModelResponse where
  stop_reason : String
  content : List ContentBlock
deriving DecidableEq

/-- The parts of an `invoke_model` request body that the claims are about.
`tools = none` models the `tools` key being absent from the body. -/
structure Request where
  messages : List Message
  system : String
  tools : Option (List String)
  tool_choice : Option String
deriving DecidableEq

/-- Serialized tool definitions are passed through unchanged; one definition
is modelled as an abstract string. -/
abbrev ToolDef := String

/-- One recorded call to `tool_manager.execute_tool`: tool name and kwargs. -/
abbrev ToolExec := String × List (String × String)

/-- A tool manager: `execute_tool` by name and kwargs, where `Except.error`
models a raised exception. -/
abbrev ToolManager := String → List (String × String) → Except String String

/-- Result of `_handle_tool_execution`: returned text plus recorded trace. -/
structure LoopOut where
  result : String
  requests : List Request
  toolExecs : List ToolExec

/-- Result of `generate_response`: returned string (`none` models an uncaught
`KeyError`) plus recorded trace. -/
structure RunOut where
  result : Option String
  requests : List Request
  toolExecs : List ToolExec

/-- Python truthiness of the optional `tools` argument: `None` and the empty
list are falsy. -/
def toolsTruthy : Option (List ToolDef) → Bool
  | none => false
  | some l => !l.isEmpty

/-- Python truthiness of the optional `conversation_history` argument:
`None` and the empty string are falsy. -/
def historyTruthy : Option String → Bool
  | none => false
  | some s => s != ""

/-- The static system prompt of `AIGenerator`. -/
def SYSTEM_PROMPT : String := " You are an AI assistant specialized in course materials and educational content with access to comprehensive tools for course information.

Tool Usage:
- **search_course_content**: Use for questions about specific course content or detailed educational materials
- **get_course_outline**: Use for questions about course structure, syllabus, lesson list, or course overview
- **Sequential tool calling**: You can use tools up to 2 times in separate rounds to refine searches or gather additional information
  * Round 1: Make initial tool call(s) to gather information
  * Round 2: After seeing results, you may make additional tool call(s) if needed for comparisons, refinements, or multi-part questions
  * Examples: (1) Get course outline to find lesson title → search for that topic, (2) Search one course → search another for comparison
- Synthesize tool results into accurate, fact-based responses
- If tool yields no results, state this clearly without offering alternatives

Response Protocol:
- **General knowledge questions**: Answer using existing knowledge without using tools
- **Course outline/structure questions**: Use get_course_outline tool to retrieve course title, course link, and complete lesson information (lesson numbers and titles)
- **Course content questions**: Use search_course_content tool to find specific information
- **Multi-step queries**: Use sequential tool calls when you need information from multiple sources or need to refine based on initial results
- **No meta-commentary**:
 - Provide direct answers only — no reasoning process, tool explanations, or question-type analysis
 - Do not mention \"based on the tool results\", \"in round 1\", or \"based on the search results\"


All responses must be:
1. **Brief, Concise and focused** - Get to the point quickly
2. **Educational** - Maintain instructional value
3. **Clear** - Use accessible language
4. **Example-supported** - Include relevant examples when they aid understanding
Provide only the direct answer to what was asked.
"

/-- A single-quote character, written by code point to keep the embedding of
the error-string format readable. -/
def squote : String := String.singleton (Char.ofNat 39)

/-- The inline error text produced when a tool raises, from
`_execute_tools_from_response`. -/
def errorToolString (name msg : String) : String :=
  "Error executing tool " ++ squote ++ name ++ squote ++ ": " ++ msg

/-- The try/except around one `execute_tool` call: a raised exception is
converted into the inline error text. -/
def runTool (tool_manager : ToolManager) (name : String)
    (input : List (String × String)) : String :=
  match tool_manager name input with
  | Except.ok s => s
  | Except.error e => errorToolString name e

/-- Embedding of `_execute_tools_from_response`: iterate over the content
blocks, executing each `tool_use` block and appending one `tool_result`
block per execution.  The second component records the `execute_tool`
invocations in order. -/
def execute_tools_from_response (response_content : List ContentBlock)
    (tool_manager : ToolManager) : List ContentBlock × List ToolExec :=
  response_content.foldl
    (fun acc content_block =>
      match content_block with
      | ContentBlock.toolUse id name input =>
          (acc.1 ++ [ContentBlock.toolResult id (runTool tool_manager name input)],
           acc.2 ++ [(name, input)])
      | _ => acc)
    ([], [])

/-- The text fields of the `text` blocks of a content list, in order. -/
def textBlocks (content : List ContentBlock) : List String :=
  content.filterMap (fun b =>
    match b with
    | ContentBlock.text s => some s
    | _ => none)

/-- Embedding of `_extract_text_from_response`: join the text blocks with a
space, falling back to a fixed string when there are none. -/
def extract_text_from_response (response : ModelResponse) : String :=
  if (textBlocks response.content).isEmpty then
    "Unable to provide a complete response."
  else
    String.intercalate " " (textBlocks response.content)

/-- Embedding of `response_body["content"][0]["text"]`: `none` models the
`IndexError`/`KeyError` raised when the content list is empty or its first
block has no `text` field. -/
def firstBlockText : List ContentBlock → Option String
  | ContentBlock.text s :: _ => some s
  | _ => none

/-- Embedding of the request-body construction of `_make_followup_call`:
tools and automatic tool choice are attached only when `include_tools` holds
and the tools value is truthy. -/
def make_followup_request (messages : List Message) (system_content : String)
    (include_tools : Prop) [Decidable include_tools]
    (tools : Option (List ToolDef)) : Request :=
  if include_tools ∧ toolsTruthy tools = true then
    ⟨messages, system_content, tools, some "auto"⟩
  else
    ⟨messages, system_content, none, none⟩

/-- Lines 157-159 of the loop body: the tool results are appended as one
user message unless the result list is empty. -/
def appendToolResults (messages : List Message)
    (tool_results : List ContentBlock) : List Message :=
  if tool_results = [] then messages
  else messages ++ [⟨"user", MsgContent.blocks tool_results⟩]

/-- The bound on sequential tool rounds (`MAX_TOOL_ROUNDS` in the source). -/
def MAX_TOOL_ROUNDS : Nat := 2

/-- Embedding of the `while current_round <= MAX_TOOL_ROUNDS` loop of
`_handle_tool_execution`.  The fuel argument is
`MAX_TOOL_ROUNDS - current_round + 1`, so fuel `n + 1` with `n = 0` is the
last permitted round and fuel `0` is the unreachable fall-through return.
`callIdx` is the index the next endpoint call will have in the whole run. -/
def toolLoop (tool_manager : ToolManager) (system_content : String)
    (tools : Option (List ToolDef)) (model : Nat → ModelResponse) :
    Nat → Nat → ModelResponse → List Message → LoopOut
  | _, 0, _, _ =>
      ⟨"Unable to generate response after maximum tool rounds.", [], []⟩
  | callIdx, n + 1, current_response, messages =>
      let tr := execute_tools_from_response current_response.content tool_manager
      let messages2 := appendToolResults messages tr.1
      let req := make_followup_request messages2 system_content (¬ n = 0) tools
      let next := model callIdx
      if next.stop_reason ≠ "tool_use" then
        ⟨extract_text_from_response next, [req], tr.2⟩
      else if n = 0 then
        ⟨extract_text_from_response next, [req], tr.2⟩
      else
        let rest := toolLoop tool_manager system_content tools model
          (callIdx + 1) n next
          (messages2 ++ [⟨"assistant", MsgContent.blocks next.content⟩])
        ⟨rest.result, req :: rest.requests, tr.2 ++ rest.toolExecs⟩

/-- Embedding of `_handle_tool_execution`: copy the seed messages, append
the assistant message holding the initial tool-use response, and run the
round loop starting at round 1. -/
def handle_tool_execution (initial_response : ModelResponse)
    (messages0 : List Message) (system_content : String)
    (tools : Option (List ToolDef)) (tool_manager : ToolManager)
    (model : Nat → ModelResponse) : LoopOut :=
  toolLoop tool_manager system_content tools model 1 MAX_TOOL_ROUNDS
    initial_response
    (messages0 ++ [⟨"assistant", MsgContent.blocks initial_response.content⟩])

/-- The system content of the request: the static prompt, with the
conversation history appended after a separator when it is truthy. -/
def build_system_content (conversation_history : Option String) : String :=
  if historyTruthy conversation_history = true then
    SYSTEM_PROMPT ++ "\n\nPrevious conversation:\n"
      ++ conversation_history.getD ""
  else SYSTEM_PROMPT

/-- The `tools` entry of the initial request body, as later read back by
`base_params.get("tools")`: present exactly when the argument is truthy. -/
def requestTools (tools : Option (List ToolDef)) : Option (List ToolDef) :=
  if toolsTruthy tools = true then tools else none

/-- The initial request body built by `generate_response`. -/
def initialRequest (query : String) (conversation_history : Option String)
    (tools : Option (List ToolDef)) : Request :=
  if toolsTruthy tools = true then
    ⟨[⟨"user", MsgContent.str query⟩], build_system_content conversation_history,
      tools, some "auto"⟩
  else
    ⟨[⟨"user", MsgContent.str query⟩], build_system_content conversation_history,
      none, none⟩

/-- Embedding of `generate_response`: one endpoint call, then either the
tool-execution loop (when the response stops for tool use and a tool manager
was supplied) or the direct return of the first content block text field. -/
def generate_response (query : String) (conversation_history : Option String)
    (tools : Option (List ToolDef)) (tool_manager : Option ToolManager)
    (model : Nat → ModelResponse) : RunOut :=
  match tool_manager with
  | some t =>
      if (model 0).stop_reason = "tool_use" then
        let l := handle_tool_execution (model 0)
          [⟨"user", MsgContent.str query⟩]
          (build_system_content conversation_history)
          (requestTools tools) t model
        ⟨some l.result, initialRequest query conversation_history tools :: l.requests,
          l.toolExecs⟩
      else
        ⟨firstBlockText (model 0).content,
          [initialRequest query conversation_history tools], []⟩
  | none =>
      ⟨firstBlockText (model 0).content,
        [initialRequest query conversation_history tools], []⟩

/-- Spec-side description of the tool results produced for a content list:
one `tool_result` per `tool_use` block, in order, tagged with its id. -/
def resultsOf (tool_manager : ToolManager) (content : List ContentBlock) :
    List ContentBlock :=
  content.filterMap (fun b =>
    match b with
    | ContentBlock.toolUse id name input =>
        some (ContentBlock.toolResult id (runTool tool_manager name input))
    | _ => none)

/-- Spec-side description of the `execute_tool` invocations for a content
list: one per `tool_use` block, in order. -/
def toolCallsOf (content : List ContentBlock) : List ToolExec :=
  content.filterMap (fun b =>
    match b with
    | ContentBlock.toolUse _ name input => some (name, input)
    | _ => none)

/-- Number of `tool_use` blocks in a content list. -/
def countToolUse (content : List ContentBlock) : Nat :=
  content.countP (fun b =>
    match b with
    | ContentBlock.toolUse _ _ _ => true
    | _ => false)

/-- Whether a content list holds at least one `tool_use` block. -/
def hasToolUse (content : List ContentBlock) : Bool :=
  content.any (fun b =>
    match b with
    | ContentBlock.toolUse _ _ _ => true
    | _ => false)

/-- The `execute_tool` invocations of `n` consecutive rounds whose responses
are the oracle values starting at call index `ci`. -/
def modelExecs (model : Nat → ModelResponse) : Nat → Nat → List ToolExec
  | _, 0 => []
  | ci, n + 1 => toolCallsOf (model ci).content ++ modelExecs model (ci + 1) n

/-- The response whose tools round `i` executes, when the loop entered with
current response `cur` and next call index `ci`. -/
def chainResp (model : Nat → ModelResponse) (cur : ModelResponse) (ci : Nat) :
    Nat → ModelResponse
  | 0 => cur
  | i + 1 => model (ci + i)

/-- A tool manager whose every call succeeds. -/
def tOk : ToolManager := fun _ _ => Except.ok "ok-result"

/-- A tool manager whose every call raises. -/
def tBoom : ToolManager := fun _ _ => Except.error "boom"

/-- An oracle that requests one tool on every response and emits no text. -/
def modelAlwaysTool : Nat → ModelResponse := fun _ =>
  ⟨"tool_use", [ContentBlock.toolUse "tid" "search_course_content" [("query", "q")]]⟩

/-- An oracle whose first response ends the turn with two text blocks. -/
def modelEndTurnAB : Nat → ModelResponse := fun _ =>
  ⟨"end_turn", [ContentBlock.text "A", ContentBlock.text "B"]⟩

/-- An oracle whose first response requests three tools at once and whose
second response ends the turn. -/
def modelThreeTools : Nat → ModelResponse := fun i =>
  if i = 0 then
    ⟨"tool_use", [ContentBlock.toolUse "t1" "a" [], ContentBlock.toolUse "t2" "b" [],
      ContentBlock.toolUse "t3" "c" []]⟩
  else ⟨"end_turn", [ContentBlock.text "done"]⟩

/-- An oracle that always ends the turn with one text block. -/
def modelEndTurnOk : Nat → ModelResponse := fun _ =>
  ⟨"end_turn", [ContentBlock.text "ok"]⟩

/-- The fold of `_execute_tools_from_response` computes exactly the per-block
results and invocation lists. -/
theorem execute_tools_from_response_eq (content : List ContentBlock)
    (t : ToolManager) :
    execute_tools_from_response content t = (resultsOf t content, toolCallsOf content) := by
  have aux : ∀ (c : List ContentBlock) (acc : List ContentBlock × List ToolExec),
      c.foldl
        (fun acc content_block =>
          match content_block with
          | ContentBlock.toolUse id name input =>
              (acc.1 ++ [ContentBlock.toolResult id (runTool t name input)],
               acc.2 ++ [(name, input)])
          | _ => acc)
        acc = (acc.1 ++ resultsOf t c, acc.2 ++ toolCallsOf c) := by
    intro c
    induction c with
    | nil => intro acc; simp [resultsOf, toolCallsOf]
    | cons b rest ih =>
        intro acc
        cases b with
        | text s => simpa [resultsOf, toolCallsOf] using ih acc
        | toolUse id name input =>
            simp only [List.foldl_cons, ih, resultsOf, toolCallsOf, List.filterMap_cons]
            simp
        | toolResult id c => simpa [resultsOf, toolCallsOf] using ih acc
  simpa using aux content ([], [])

/-- There are as many recorded `execute_tool` invocations as `tool_use`
blocks. -/
theorem toolCallsOf_length (content : List ContentBlock) :
    (toolCallsOf content).length = countToolUse content := by
  induction content with
  | nil => simp [toolCallsOf, countToolUse]
  | cons b rest ih =>
      cases b <;> simp [toolCallsOf, countToolUse, List.filterMap_cons, List.countP_cons] at *
        <;> omega

/-- A content list with a `tool_use` block produces a nonempty result list. -/
theorem resultsOf_ne_nil (t : ToolManager) (content : List ContentBlock)
    (h : hasToolUse content = true) : resultsOf t content ≠ [] := by
  induction content with
  | nil => simp [hasToolUse] at h
  | cons b rest ih =>
      cases b with
      | text s =>
          simp only [hasToolUse, List.any_cons] at h
          simp only [resultsOf, List.filterMap_cons]
          exact ih (by simpa [hasToolUse] using h)
      | toolUse id name input => simp [resultsOf, List.filterMap_cons]
      | toolResult id c =>
          simp only [hasToolUse, List.any_cons] at h
          simp only [resultsOf, List.filterMap_cons]
          exact ih (by simpa [hasToolUse] using h)

/-- Appending tool results never rewrites the existing history. -/
theorem appendToolResults_extends (messages : List Message)
    (tool_results : List ContentBlock) :
    List.IsPrefix messages (appendToolResults messages tool_results) := by
  unfold appendToolResults
  split
  · exact ⟨[], List.append_nil messages⟩
  · exact ⟨_, rfl⟩

/-- Length of the history after appending a nonempty tool-result message. -/
theorem appendToolResults_length_of_ne (messages : List Message)
    (tool_results : List ContentBlock) (h : tool_results ≠ []) :
    (appendToolResults messages tool_results).length = messages.length + 1 := by
  simp [appendToolResults, h]

/-- The loop makes at most as many endpoint calls as it has fuel. -/
theorem toolLoop_requests_le (t : ToolManager) (sys : String)
    (tools : Option (List ToolDef)) (model : Nat → ModelResponse) :
    ∀ n ci cur msgs,
      (toolLoop t sys tools model ci n cur msgs).requests.length ≤ n := by
  intro n
  induction n with
  | zero => intro ci cur msgs; simp [toolLoop]
  | succ m ih =>
      intro ci cur msgs
      simp only [toolLoop]
      split
      · simp
      · split
        · simp
        · simpa using Nat.succ_le_succ (ih (ci + 1) _ _)

/-- The loop, entered with positive fuel, makes at least one endpoint call. -/
theorem toolLoop_requests_pos (t : ToolManager) (sys : String)
    (tools : Option (List ToolDef)) (model : Nat → ModelResponse)
    (n ci : Nat) (cur : ModelResponse) (msgs : List Message) :
    1 ≤ (toolLoop t sys tools model ci (n + 1) cur msgs).requests.length := by
  simp only [toolLoop]
  split
  · simp
  · split
    · simp
    · simp

/-- The message list of a follow-up request is the history it was built
from, whether or not tools are attached. -/
theorem make_followup_request_messages (messages : List Message) (sys : String)
    (p : Prop) [Decidable p] (tools : Option (List ToolDef)) :
    (make_followup_request messages sys p tools).messages = messages := by
  unfold make_followup_request
  split <;> rfl

/-- Shifting the round-to-response map by one round. -/
theorem chainResp_shift (model : Nat → ModelResponse) (cur : ModelResponse)
    (ci i : Nat) :
    chainResp model (model ci) (ci + 1) i = chainResp model cur ci (i + 1) := by
  cases i with
  | zero => simp [chainResp]
  | succ k =>
      have e : ci + 1 + k = ci + (k + 1) := by omega
      simp [chainResp, e]

/-- At the top of the run the round-to-response map is the oracle itself. -/
theorem chainResp_top (model : Nat → ModelResponse) (i : Nat) :
    chainResp model (model 0) 1 i = model i := by
  cases i with
  | zero => rfl
  | succ k => simp [chainResp, Nat.add_comm]

/-- One-step unfolding of the loop at positive fuel, stated so that the
recursive occurrence stays folded during rewriting. -/
theorem toolLoop_succ (t : ToolManager) (sys : String)
    (tools : Option (List ToolDef)) (model : Nat → ModelResponse)
    (ci n : Nat) (cur : ModelResponse) (msgs : List Message) :
    toolLoop t sys tools model ci (n + 1) cur msgs =
      if (model ci).stop_reason ≠ "tool_use" then
        ⟨extract_text_from_response (model ci),
          [make_followup_request
            (appendToolResults msgs (execute_tools_from_response cur.content t).1)
            sys (¬ n = 0) tools],
          (execute_tools_from_response cur.content t).2⟩
      else if n = 0 then
        ⟨extract_text_from_response (model ci),
          [make_followup_request
            (appendToolResults msgs (execute_tools_from_response cur.content t).1)
            sys (¬ n = 0) tools],
          (execute_tools_from_response cur.content t).2⟩
      else
        ⟨(toolLoop t sys tools model (ci + 1) n (model ci)
            (appendToolResults msgs (execute_tools_from_response cur.content t).1 ++
              [⟨"assistant", MsgContent.blocks (model ci).content⟩])).result,
          make_followup_request
            (appendToolResults msgs (execute_tools_from_response cur.content t).1)
            sys (¬ n = 0) tools ::
            (toolLoop t sys tools model (ci + 1) n (model ci)
              (appendToolResults msgs (execute_tools_from_response cur.content t).1 ++
                [⟨"assistant", MsgContent.blocks (model ci).content⟩])).requests,
          (execute_tools_from_response cur.content t).2 ++
            (toolLoop t sys tools model (ci + 1) n (model ci)
              (appendToolResults msgs (execute_tools_from_response cur.content t).1 ++
                [⟨"assistant", MsgContent.blocks (model ci).content⟩])).toolExecs⟩ := by
  rfl

/-- The first request the loop sends carries the history extended with the
tool results of the current response. -/
theorem toolLoop_head_request (t : ToolManager) (sys : String)
    (tools : Option (List ToolDef)) (model : Nat → ModelResponse)
    (n ci : Nat) (cur : ModelResponse) (msgs : List Message) :
    (toolLoop t sys tools model ci (n + 1) cur msgs).requests[0]? =
      some (make_followup_request (appendToolResults msgs (resultsOf t cur.content))
        sys (¬ n = 0) tools) := by
  simp only [toolLoop, execute_tools_from_response_eq]
  split
  · simp
  · split
    · simp
    · simp

/-- When every response consulted by the loop stops for tool use, the loop
uses all its fuel: it returns the text of the final oracle response, makes
one endpoint call per unit of fuel, and executes the tools of each consulted
response in order. -/
theorem toolLoop_chain (t : ToolManager) (sys : String)
    (tools : Option (List ToolDef)) (model : Nat → ModelResponse) :
    ∀ n ci cur msgs,
      (∀ j, j < n → (model (ci + j)).stop_reason = "tool_use") →
      (toolLoop t sys tools model ci (n + 1) cur msgs).result =
          extract_text_from_response (model (ci + n)) ∧
      (toolLoop t sys tools model ci (n + 1) cur msgs).requests.length = n + 1 ∧
      (toolLoop t sys tools model ci (n + 1) cur msgs).toolExecs =
          toolCallsOf cur.content ++ modelExecs model ci n := by
  intro n
  induction n with
  | zero =>
      intro ci cur msgs _
      simp only [toolLoop, execute_tools_from_response_eq]
      split
      · simp [modelExecs]
      · simp [modelExecs]
  | succ m ih =>
      intro ci cur msgs h
      have h0 : (model ci).stop_reason = "tool_use" := by
        simpa using h 0 (Nat.succ_pos m)
      have hc : ¬ ((model ci).stop_reason ≠ "tool_use") := by simp [h0]
      have ihs := ih (ci + 1) (model ci)
        (appendToolResults msgs (execute_tools_from_response cur.content t).1 ++
          [⟨"assistant", MsgContent.blocks (model ci).content⟩])
        (fun j hj => by
          have := h (j + 1) (by omega)
          rwa [show ci + (j + 1) = ci + 1 + j by omega] at this)
      rw [show ci + 1 + m = ci + (m + 1) by omega] at ihs
      rw [toolLoop_succ, if_neg hc, if_neg (Nat.succ_ne_zero m)]
      have e2 : (execute_tools_from_response cur.content t).2 = toolCallsOf cur.content := by
        rw [execute_tools_from_response_eq]
      refine ⟨ihs.1, ?_, ?_⟩
      · simp [ihs.2.1]
      · rw [show modelExecs model ci (m + 1) =
            toolCallsOf (model ci).content ++ modelExecs model (ci + 1) m from rfl]
        simp [e2, ihs.2.2]

/-- When every response holds at most one tool-use block, the loop performs
at most as many tool executions as it has fuel. -/
theorem toolLoop_execs_le (t : ToolManager) (sys : String)
    (tools : Option (List ToolDef)) (model : Nat → ModelResponse)
    (hb : ∀ i, countToolUse (model i).content ≤ 1) :
    ∀ n ci cur msgs, countToolUse cur.content ≤ 1 →
      (toolLoop t sys tools model ci n cur msgs).toolExecs.length ≤ n := by
  intro n
  induction n with
  | zero => intro ci cur msgs _; simp [toolLoop]
  | succ m ih =>
      intro ci cur msgs hc
      have hlen : (execute_tools_from_response cur.content t).2.length ≤ 1 := by
        rw [execute_tools_from_response_eq]
        simpa [toolCallsOf_length] using hc
      simp only [toolLoop]
      split
      · exact hlen.trans (by omega)
      · split
        · exact hlen.trans (by omega)
        · have h2 := ih (ci + 1) (model ci)
            (appendToolResults msgs (execute_tools_from_response cur.content t).1 ++
              [⟨"assistant", MsgContent.blocks (model ci).content⟩])
            (hb ci)
          simp only [List.length_append]
          omega

/-- The tools and tool-choice fields of a follow-up request, in terms of the
permission flag it was built with. -/
theorem make_followup_request_fields (messages : List Message) (sys : String)
    (p : Prop) [Decidable p] (tools : Option (List ToolDef)) :
    (make_followup_request messages sys p tools).tools =
        (if p ∧ toolsTruthy tools = true then tools else none) ∧
    (make_followup_request messages sys p tools).tool_choice =
        (if p ∧ toolsTruthy tools = true then some "auto" else none) := by
  unfold make_followup_request
  split
  · rename_i hp
    simp [hp]
  · rename_i hp
    simp [hp]

/-- Consecutive requests made by the loop have monotonically growing message
histories: the earlier history is a prefix of the later one. -/
theorem toolLoop_prefix_chain (t : ToolManager) (sys : String)
    (tools : Option (List ToolDef)) (model : Nat → ModelResponse) :
    ∀ n ci cur msgs j r1 r2,
      (toolLoop t sys tools model ci n cur msgs).requests[j]? = some r1 →
      (toolLoop t sys tools model ci n cur msgs).requests[j + 1]? = some r2 →
      List.IsPrefix r1.messages r2.messages := by
  intro n
  induction n with
  | zero =>
      intro ci cur msgs j r1 r2 h1 _
      simp [toolLoop] at h1
  | succ m ih =>
      intro ci cur msgs j r1 r2 h1 h2
      rw [toolLoop_succ] at h1 h2
      by_cases hstop : (model ci).stop_reason ≠ "tool_use"
      · rw [if_pos hstop] at h2
        simp at h2
      · rw [if_neg hstop] at h1 h2
        by_cases hm : m = 0
        · rw [if_pos hm] at h2
          simp at h2
        · rw [if_neg hm] at h1 h2
          obtain ⟨mm, rfl⟩ : ∃ mm, m = mm + 1 := ⟨m - 1, by omega⟩
          cases j with
          | zero =>
              simp only [List.getElem?_cons_zero, Option.some.injEq] at h1
              simp only [Nat.zero_add, List.getElem?_cons_succ] at h2
              rw [toolLoop_head_request] at h2
              rw [Option.some.injEq] at h2
              subst h1
              subst h2
              rw [make_followup_request_messages, make_followup_request_messages]
              exact List.IsPrefix.trans ⟨_, rfl⟩ (appendToolResults_extends _ _)
          | succ jj =>
              simp only [List.getElem?_cons_succ] at h1 h2
              exact ih _ _ _ jj r1 r2 h1 h2

/-- Fields of the j-th request the loop makes: tools (with automatic tool
choice) are attached exactly to the requests of non-final rounds, given a
truthy tools value. -/
theorem toolLoop_request_tools (t : ToolManager) (sys : String)
    (tools : Option (List ToolDef)) (model : Nat → ModelResponse) :
    ∀ n ci cur msgs j r,
      (toolLoop t sys tools model ci n cur msgs).requests[j]? = some r →
      r.tools = (if j + 1 < n ∧ toolsTruthy tools = true then tools else none) ∧
      r.tool_choice =
        (if j + 1 < n ∧ toolsTruthy tools = true then some "auto" else none) := by
  intro n
  induction n with
  | zero =>
      intro ci cur msgs j r h
      simp [toolLoop] at h
  | succ m ih =>
      intro ci cur msgs j r h
      rw [toolLoop_succ] at h
      have hiff : (j + 1 < m + 1) ↔ (j < m) := by omega
      by_cases hstop : (model ci).stop_reason ≠ "tool_use"
      · rw [if_pos hstop] at h
        cases j with
        | zero =>
            simp only [List.getElem?_cons_zero, Option.some.injEq] at h
            subst h
            have hiff0 : (0 + 1 < m + 1) ↔ ¬ m = 0 := by omega
            simpa [hiff0] using make_followup_request_fields _ sys (¬ m = 0) tools
        | succ jj => simp at h
      · rw [if_neg hstop] at h
        by_cases hm : m = 0
        · rw [if_pos hm] at h
          cases j with
          | zero =>
              simp only [List.getElem?_cons_zero, Option.some.injEq] at h
              subst h
              have hiff0 : ¬ (0 + 1 < m + 1) := by omega
              simpa [hiff0, hm] using make_followup_request_fields _ sys (¬ m = 0) tools
          | succ jj => simp at h
        · rw [if_neg hm] at h
          cases j with
          | zero =>
              simp only [List.getElem?_cons_zero, Option.some.injEq] at h
              subst h
              have hiff0 : (0 + 1 < m + 1) ↔ ¬ m = 0 := by omega
              simpa [hiff0] using make_followup_request_fields _ sys (¬ m = 0) tools
          | succ jj =>
              simp only [List.getElem?_cons_succ] at h
              have := ih _ _ _ jj r h
              have hiff1 : (jj + 1 + 1 < m + 1) ↔ (jj + 1 < m) := by omega
              simpa [hiff1] using this

/-- Position and length of the request the loop makes after round `j + 1`
(0-indexed: `j = 0` is the request following the first round), provided all
consulted responses stop for tool use and carry at least one tool-use
block. -/
theorem toolLoop_messages (t : ToolManager) (sys : String)
    (tools : Option (List ToolDef)) (model : Nat → ModelResponse) :
    ∀ n j ci cur msgs,
      j < n →
      (∀ i, i < j → (model (ci + i)).stop_reason = "tool_use") →
      (∀ i, i ≤ j → hasToolUse (chainResp model cur ci i).content = true) →
      ∃ r, (toolLoop t sys tools model ci n cur msgs).requests[j]? = some r ∧
        r.messages.length = msgs.length + 1 + 2 * j := by
  intro n
  induction n with
  | zero =>
      intro j ci cur msgs hj
      exact absurd hj (Nat.not_lt_zero j)
  | succ m ih =>
      intro j ci cur msgs hj hstops htu
      cases j with
      | zero =>
          refine ⟨_, toolLoop_head_request t sys tools model m ci cur msgs, ?_⟩
          rw [make_followup_request_messages]
          have hne : resultsOf t cur.content ≠ [] :=
            resultsOf_ne_nil t _ (by simpa [chainResp] using htu 0 (le_refl 0))
          simp [appendToolResults_length_of_ne _ _ hne]
      | succ jj =>
          have h0 : (model ci).stop_reason = "tool_use" := by
            simpa using hstops 0 (Nat.succ_pos jj)
          have hc : ¬ ((model ci).stop_reason ≠ "tool_use") := by simp [h0]
          have hm : ¬ m = 0 := by omega
          have hne : (execute_tools_from_response cur.content t).1 ≠ [] := by
            rw [execute_tools_from_response_eq]
            exact resultsOf_ne_nil t _ (by simpa [chainResp] using htu 0 (by omega))
          obtain ⟨r, hr, hlen⟩ := ih jj (ci + 1) (model ci)
            (appendToolResults msgs (execute_tools_from_response cur.content t).1 ++
              [⟨"assistant", MsgContent.blocks (model ci).content⟩])
            (by omega)
            (fun i hi => by
              have := hstops (i + 1) (by omega)
              rwa [show ci + (i + 1) = ci + 1 + i by omega] at this)
            (fun i hi => by
              rw [chainResp_shift]
              exact htu (i + 1) (by omega))
          rw [toolLoop_succ, if_neg hc, if_neg hm]
          refine ⟨r, by simpa using hr, ?_⟩
          rw [hlen, List.length_append, appendToolResults_length_of_ne _ _ hne]
          simp
          omega

/-- The run on the tool path: one initial request, then the loop entered at
round 1 with the assistant message appended to the seed history. -/
theorem generate_response_tool (query : String) (hist : Option String)
    (tools : Option (List ToolDef)) (t : ToolManager)
    (model : Nat → ModelResponse)
    (h0 : (model 0).stop_reason = "tool_use") :
    generate_response query hist tools (some t) model =
      ⟨some (toolLoop t (build_system_content hist) (requestTools tools) model 1
          MAX_TOOL_ROUNDS (model 0)
          [⟨"user", MsgContent.str query⟩,
           ⟨"assistant", MsgContent.blocks (model 0).content⟩]).result,
        initialRequest query hist tools ::
          (toolLoop t (build_system_content hist) (requestTools tools) model 1
            MAX_TOOL_ROUNDS (model 0)
            [⟨"user", MsgContent.str query⟩,
             ⟨"assistant", MsgContent.blocks (model 0).content⟩]).requests,
        (toolLoop t (build_system_content hist) (requestTools tools) model 1
          MAX_TOOL_ROUNDS (model 0)
          [⟨"user", MsgContent.str query⟩,
           ⟨"assistant", MsgContent.blocks (model 0).content⟩]).toolExecs⟩ := by
  simp [generate_response, handle_tool_execution, h0]

/-- Fields of the initial request body. -/
theorem initialRequest_fields (query : String) (hist : Option String)
    (tools : Option (List ToolDef)) :
    (initialRequest query hist tools).system = build_system_content hist ∧
    (initialRequest query hist tools).messages = [⟨"user", MsgContent.str query⟩] := by
  unfold initialRequest
  split <;> exact ⟨rfl, rfl⟩

/-- C1: in every run the number of endpoint calls is at most
`MAX_TOOL_ROUNDS + 1`, and a model that stops for tool use on every response
(with a tool manager supplied) triggers exactly `MAX_TOOL_ROUNDS + 1 = 3`
endpoint calls. -/
theorem c1_endpoint_call_bound (query : String) (hist : Option String)
    (tools : Option (List ToolDef)) (tm : Option ToolManager)
    (model : Nat → ModelResponse) :
    (generate_response query hist tools tm model).requests.length ≤
        MAX_TOOL_ROUNDS + 1 ∧
    ((∀ i, (model i).stop_reason = "tool_use") → tm.isSome →
      (generate_response query hist tools tm model).requests.length =
        MAX_TOOL_ROUNDS + 1) := by
  constructor
  · cases tm with
    | none => simp [generate_response, MAX_TOOL_ROUNDS]
    | some t =>
        by_cases h0 : (model 0).stop_reason = "tool_use"
        · rw [generate_response_tool query hist tools t model h0]
          have hb := toolLoop_requests_le t (build_system_content hist)
            (requestTools tools) model MAX_TOOL_ROUNDS 1 (model 0)
            [⟨"user", MsgContent.str query⟩,
             ⟨"assistant", MsgContent.blocks (model 0).content⟩]
          simp only [List.length_cons]
          omega
        · simp [generate_response, h0, MAX_TOOL_ROUNDS]
  · intro hall htm
    cases tm with
    | none => exact absurd htm (by simp)
    | some t =>
        rw [generate_response_tool query hist tools t model (hall 0)]
        rw [show MAX_TOOL_ROUNDS = 1 + 1 from rfl]
        have hch := toolLoop_chain t (build_system_content hist)
          (requestTools tools) model 1 1 (model 0)
          [⟨"user", MsgContent.str query⟩,
           ⟨"assistant", MsgContent.blocks (model 0).content⟩]
          (fun j _ => hall (1 + j))
        simp [hch.2.1]

/-- Witness for C1: a concrete always-tool-requesting run makes exactly 3
endpoint calls. -/
theorem c1_endpoint_call_bound_witness :
    (generate_response "q" none none (some tOk) modelAlwaysTool).requests.length =
      MAX_TOOL_ROUNDS + 1 :=
  (c1_endpoint_call_bound "q" none none (some tOk) modelAlwaysTool).2
    (fun _ => rfl) rfl

/-- C2 (counterexample): a model whose first response carries three tool-use
blocks causes three `execute_tool` calls, exceeding `MAX_TOOL_ROUNDS = 2`. -/
theorem c2_counterexample :
    ¬ ((generate_response "q" none none (some tOk) modelThreeTools).toolExecs.length ≤
        MAX_TOOL_ROUNDS) := by
  decide

/-- C2 (amended): when every model response carries at most one tool-use
block, the total number of tool executions is at most `MAX_TOOL_ROUNDS`, and
a model that always requests exactly one tool (with a tool manager supplied)
causes exactly `MAX_TOOL_ROUNDS = 2` executions. -/
theorem c2_tool_exec_bound_amended (query : String) (hist : Option String)
    (tools : Option (List ToolDef)) (tm : Option ToolManager)
    (model : Nat → ModelResponse)
    (h : ∀ i, countToolUse (model i).content ≤ 1) :
    (generate_response query hist tools tm model).toolExecs.length ≤
        MAX_TOOL_ROUNDS ∧
    ((∀ i, (model i).stop_reason = "tool_use" ∧ countToolUse (model i).content = 1) →
      tm.isSome →
      (generate_response query hist tools tm model).toolExecs.length =
        MAX_TOOL_ROUNDS) := by
  constructor
  · cases tm with
    | none => simp [generate_response, MAX_TOOL_ROUNDS]
    | some t =>
        by_cases h0 : (model 0).stop_reason = "tool_use"
        · rw [generate_response_tool query hist tools t model h0]
          have hb := toolLoop_execs_le t (build_system_content hist)
            (requestTools tools) model h MAX_TOOL_ROUNDS 1 (model 0)
            [⟨"user", MsgContent.str query⟩,
             ⟨"assistant", MsgContent.blocks (model 0).content⟩]
            (h 0)
          simpa using hb
        · simp [generate_response, h0, MAX_TOOL_ROUNDS]
  · intro hall htm
    cases tm with
    | none => exact absurd htm (by simp)
    | some t =>
        rw [generate_response_tool query hist tools t model (hall 0).1]
        rw [show MAX_TOOL_ROUNDS = 1 + 1 from rfl]
        have hch := toolLoop_chain t (build_system_content hist)
          (requestTools tools) model 1 1 (model 0)
          [⟨"user", MsgContent.str query⟩,
           ⟨"assistant", MsgContent.blocks (model 0).content⟩]
          (fun j _ => (hall (1 + j)).1)
        have l0 : (toolCallsOf (model 0).content).length = 1 := by
          rw [toolCallsOf_length]; exact (hall 0).2
        have l1 : (toolCallsOf (model 1).content).length = 1 := by
          rw [toolCallsOf_length]; exact (hall 1).2
        simp [hch.2.2, modelExecs, l0, l1]

/-- Witness for C2 (amended): one tool-use block per response gives exactly
two executions. -/
theorem c2_tool_exec_bound_amended_witness :
    (∀ i, countToolUse (modelAlwaysTool i).content ≤ 1) ∧
    (generate_response "q" none none (some tOk) modelAlwaysTool).toolExecs.length =
      MAX_TOOL_ROUNDS :=
  ⟨fun _ => Nat.le_refl 1,
    (c2_tool_exec_bound_amended "q" none none (some tOk) modelAlwaysTool
      (fun _ => Nat.le_refl 1)).2 (fun _ => ⟨rfl, rfl⟩) rfl⟩

/-- C3 (counterexample): a first response ending the turn with two text
blocks makes the run return only the first text field, not any concatenation
of all text blocks. -/
theorem c3_counterexample :
    (generate_response "q" none none none modelEndTurnAB).requests.length = 1 ∧
    (generate_response "q" none none none modelEndTurnAB).result = some "A" ∧
    (generate_response "q" none none none modelEndTurnAB).result ≠
      some (String.intercalate " " (textBlocks (modelEndTurnAB 0).content)) ∧
    (generate_response "q" none none none modelEndTurnAB).result ≠
      some (String.join (textBlocks (modelEndTurnAB 0).content)) := by
  refine ⟨rfl, rfl, ?_, ?_⟩ <;> decide

/-- C3 (amended): when the first response does not stop for tool use, the
run makes exactly one endpoint call, executes no tool, and returns the text
field of the first content block of that response. -/
theorem c3_first_block_amended (query : String) (hist : Option String)
    (tools : Option (List ToolDef)) (tm : Option ToolManager)
    (model : Nat → ModelResponse)
    (h : (model 0).stop_reason ≠ "tool_use") :
    (generate_response query hist tools tm model).requests.length = 1 ∧
    (generate_response query hist tools tm model).result =
      firstBlockText (model 0).content ∧
    (generate_response query hist tools tm model).toolExecs = [] := by
  cases tm with
  | none => simp [generate_response]
  | some t => simp [generate_response, h]

/-- Witness for C3 (amended). -/
theorem c3_first_block_amended_witness :
    (modelEndTurnAB 0).stop_reason ≠ "tool_use" ∧
    (generate_response "q" none none none modelEndTurnAB).result =
      firstBlockText (modelEndTurnAB 0).content :=
  ⟨by decide,
    (c3_first_block_amended "q" none none none modelEndTurnAB (by decide)).2.1⟩

/-- C6: a tool call that raises is converted into a tool result whose content
is exactly the inline error string, the remaining blocks are still processed
in place, and the run still makes the follow-up endpoint call. -/
theorem c6_tool_error_isolated (t : ToolManager) (pre post : List ContentBlock)
    (id name : String) (input : List (String × String)) (e : String)
    (he : t name input = Except.error e) :
    (execute_tools_from_response (pre ++ ContentBlock.toolUse id name input :: post) t).1 =
      (execute_tools_from_response pre t).1 ++
        ContentBlock.toolResult id (errorToolString name e) ::
        (execute_tools_from_response post t).1 ∧
    (∀ (query : String) (hist : Option String) (tools : Option (List ToolDef))
        (model : Nat → ModelResponse),
      (model 0).stop_reason = "tool_use" →
      2 ≤ (generate_response query hist tools (some t) model).requests.length) := by
  constructor
  · rw [execute_tools_from_response_eq, execute_tools_from_response_eq,
      execute_tools_from_response_eq]
    simp only [resultsOf, List.filterMap_append, List.filterMap_cons]
    simp [runTool, he]
  · intro query hist tools model h0
    rw [generate_response_tool query hist tools t model h0]
    rw [show MAX_TOOL_ROUNDS = 1 + 1 from rfl]
    have hp := toolLoop_requests_pos t (build_system_content hist)
      (requestTools tools) model 1 1 (model 0)
      [⟨"user", MsgContent.str query⟩,
       ⟨"assistant", MsgContent.blocks (model 0).content⟩]
    simp only [List.length_cons]
    omega

/-- Witness for C6: a raising tool produces exactly the inline error result. -/
theorem c6_tool_error_isolated_witness :
    tBoom "n" [] = Except.error "boom" ∧
    (execute_tools_from_response [ContentBlock.toolUse "i" "n" []] tBoom).1 =
      [ContentBlock.toolResult "i" (errorToolString "n" "boom")] :=
  ⟨rfl, by
    have h := (c6_tool_error_isolated tBoom [] [] "i" "n" [] "boom" rfl).1
    simpa [execute_tools_from_response] using h⟩

/-- C7: tool dispatch processes exactly the tool-use blocks, in order, one
result per block tagged with the matching id; other block types produce
nothing. -/
theorem c7_tool_dispatch_order (response_content : List ContentBlock)
    (t : ToolManager) :
    (execute_tools_from_response response_content t).1 = resultsOf t response_content ∧
    (execute_tools_from_response response_content t).2 = toolCallsOf response_content := by
  rw [execute_tools_from_response_eq]
  exact ⟨rfl, rfl⟩

/-- C10: with the first response stopping for tool use but no tool manager
supplied, no tool runs, no second endpoint call is made, and the returned
value is the text field of the first content block. -/
theorem c10_no_tool_manager (query : String) (hist : Option String)
    (tools : Option (List ToolDef)) (model : Nat → ModelResponse)
    (h : (model 0).stop_reason = "tool_use") :
    (generate_response query hist tools none model).toolExecs = [] ∧
    (generate_response query hist tools none model).requests.length = 1 ∧
    (generate_response query hist tools none model).result =
      firstBlockText (model 0).content := by
  simp [generate_response]

/-- Witness for C10. -/
theorem c10_no_tool_manager_witness :
    (modelAlwaysTool 0).stop_reason = "tool_use" ∧
    (generate_response "q" none none none modelAlwaysTool).requests.length = 1 :=
  ⟨rfl, (c10_no_tool_manager "q" none none modelAlwaysTool rfl).2.1⟩

/-- C4: with truthy tools supplied, every request except the final
forced-answer request of the last permitted round attaches the tool
definitions together with automatic tool choice, and that final request
omits both fields entirely. -/
theorem c4_tools_attachment (query : String) (hist : Option String)
    (tools : Option (List ToolDef)) (tm : Option ToolManager)
    (model : Nat → ModelResponse)
    (htools : toolsTruthy tools = true) :
    ∀ j r, (generate_response query hist tools tm model).requests[j]? = some r →
      (j < MAX_TOOL_ROUNDS → r.tools = tools ∧ r.tool_choice = some "auto") ∧
      (j = MAX_TOOL_ROUNDS → r.tools = none ∧ r.tool_choice = none) := by
  intro j r hr
  have hreq : requestTools tools = tools := by simp [requestTools, htools]
  have hinit :
      (0 < MAX_TOOL_ROUNDS →
        (initialRequest query hist tools).tools = tools ∧
        (initialRequest query hist tools).tool_choice = some "auto") ∧
      (0 = MAX_TOOL_ROUNDS →
        (initialRequest query hist tools).tools = none ∧
        (initialRequest query hist tools).tool_choice = none) := by
    constructor
    · intro _
      simp [initialRequest, htools]
    · intro h2
      exact absurd h2 (by decide)
  cases tm with
  | none =>
      simp only [generate_response] at hr
      cases j with
      | zero =>
          simp only [List.getElem?_cons_zero, Option.some.injEq] at hr
          subst hr
          exact hinit
      | succ jj => simp at hr
  | some t =>
      by_cases h0 : (model 0).stop_reason = "tool_use"
      · rw [generate_response_tool query hist tools t model h0] at hr
        cases j with
        | zero =>
            simp only [List.getElem?_cons_zero, Option.some.injEq] at hr
            subst hr
            exact hinit
        | succ jj =>
            simp only [List.getElem?_cons_succ] at hr
            obtain ⟨ht, hc⟩ := toolLoop_request_tools t (build_system_content hist)
              (requestTools tools) model MAX_TOOL_ROUNDS 1 (model 0)
              [⟨"user", MsgContent.str query⟩,
               ⟨"assistant", MsgContent.blocks (model 0).content⟩] jj r hr
            rw [hreq] at ht hc
            constructor
            · intro hlt
              have hcond : jj + 1 < MAX_TOOL_ROUNDS ∧ toolsTruthy tools = true :=
                ⟨hlt, htools⟩
              rw [ht, hc, if_pos hcond, if_pos hcond]
              exact ⟨rfl, rfl⟩
            · intro heq
              have hcond : ¬ (jj + 1 < MAX_TOOL_ROUNDS ∧ toolsTruthy tools = true) := by
                intro hcontra
                omega
              rw [ht, hc, if_neg hcond, if_neg hcond]
              exact ⟨rfl, rfl⟩
      · simp only [generate_response, if_neg h0] at hr
        cases j with
        | zero =>
            simp only [List.getElem?_cons_zero, Option.some.injEq] at hr
            subst hr
            exact hinit
        | succ jj => simp at hr

/-- Witness for C4: in a concrete three-call run, the second request still
carries the tools and the third (forced-answer) request omits them. -/
theorem c4_tools_attachment_witness :
    toolsTruthy (some ["T"]) = true ∧
    ((generate_response "q" none (some ["T"]) (some tOk) modelAlwaysTool).requests[1]?.map
        Request.tools) = some (some ["T"]) ∧
    ((generate_response "q" none (some ["T"]) (some tOk) modelAlwaysTool).requests[2]?.map
        Request.tools) = some none := by
  refine ⟨rfl, ?_, ?_⟩
  · cases h1 : (generate_response "q" none (some ["T"]) (some tOk) modelAlwaysTool).requests[1]? with
    | none => exact absurd h1 (by decide)
    | some r =>
        have h := (c4_tools_attachment "q" none (some ["T"]) (some tOk) modelAlwaysTool
          rfl 1 r h1).1 (by decide)
        simp [h.1]
  · cases h2 : (generate_response "q" none (some ["T"]) (some tOk) modelAlwaysTool).requests[2]? with
    | none => exact absurd h2 (by decide)
    | some r =>
        have h := (c4_tools_attachment "q" none (some ["T"]) (some tOk) modelAlwaysTool
          rfl 2 r h2).2 rfl
        simp [h.1]

/-- C5: when rounds `1..k` all end in tool-requesting responses with at
least one tool-use block, the request sent after round `k` carries exactly
`1 + 2k` messages, and consecutive requests only ever extend the history. -/
theorem c5_message_history_growth (query : String) (hist : Option String)
    (tools : Option (List ToolDef)) (t : ToolManager)
    (model : Nat → ModelResponse) (k : Nat)
    (hk1 : 1 ≤ k) (hk2 : k ≤ MAX_TOOL_ROUNDS)
    (hm : ∀ j, j < k →
      (model j).stop_reason = "tool_use" ∧ hasToolUse (model j).content = true) :
    (∃ r, (generate_response query hist tools (some t) model).requests[k]? = some r ∧
        r.messages.length = 1 + 2 * k) ∧
    (∀ j r1 r2, j + 1 ≤ k →
        (generate_response query hist tools (some t) model).requests[j]? = some r1 →
        (generate_response query hist tools (some t) model).requests[j + 1]? = some r2 →
        List.IsPrefix r1.messages r2.messages) := by
  have h0 := (hm 0 (by omega)).1
  rw [generate_response_tool query hist tools t model h0]
  obtain ⟨kk, rfl⟩ : ∃ kk, k = kk + 1 := ⟨k - 1, by omega⟩
  have hmax : MAX_TOOL_ROUNDS = 2 := rfl
  constructor
  · obtain ⟨r, hr, hlen⟩ := toolLoop_messages t (build_system_content hist)
      (requestTools tools) model MAX_TOOL_ROUNDS kk 1 (model 0)
      [⟨"user", MsgContent.str query⟩,
       ⟨"assistant", MsgContent.blocks (model 0).content⟩]
      (by omega)
      (fun i hi => by
        have := (hm (i + 1) (by omega)).1
        rwa [show (1 : Nat) + i = i + 1 by omega])
      (fun i hi => by
        rw [chainResp_top]
        exact (hm i (by omega)).2)
    refine ⟨r, by simpa using hr, ?_⟩
    rw [hlen]
    simp
    omega
  · intro j r1 r2 hj h1 h2
    cases j with
    | zero =>
        simp only [List.getElem?_cons_zero, Option.some.injEq] at h1
        simp only [Nat.zero_add, List.getElem?_cons_succ] at h2
        rw [show MAX_TOOL_ROUNDS = 1 + 1 from rfl, toolLoop_head_request,
          Option.some.injEq] at h2
        subst h1
        subst h2
        rw [make_followup_request_messages, (initialRequest_fields query hist tools).2]
        refine List.IsPrefix.trans ?_ (appendToolResults_extends _ _)
        exact ⟨[⟨"assistant", MsgContent.blocks (model 0).content⟩], rfl⟩
    | succ jj =>
        simp only [List.getElem?_cons_succ] at h1 h2
        exact toolLoop_prefix_chain t (build_system_content hist)
          (requestTools tools) model MAX_TOOL_ROUNDS 1 (model 0)
          [⟨"user", MsgContent.str query⟩,
           ⟨"assistant", MsgContent.blocks (model 0).content⟩] jj r1 r2 h1 h2

/-- Witness for C5: a concrete two-round run whose request after round 2
carries 5 messages. -/
theorem c5_message_history_growth_witness :
    (1 ≤ 2 ∧ 2 ≤ MAX_TOOL_ROUNDS) ∧
    ∃ r, (generate_response "q" none none (some tOk) modelAlwaysTool).requests[2]? =
        some r ∧ r.messages.length = 1 + 2 * 2 :=
  ⟨⟨by decide, by decide⟩,
    (c5_message_history_growth "q" none none tOk modelAlwaysTool 2 (by decide)
      (by decide) (fun j _ => ⟨rfl, rfl⟩)).1⟩

/-- C8: when the follow-up response of the last permitted round still stops
for tool use, the run returns the joined text blocks of that terminal
response (or the fixed fallback string when it has none), and only the tools
of the first two responses were ever executed. -/
theorem c8_max_rounds_terminal (query : String) (hist : Option String)
    (tools : Option (List ToolDef)) (t : ToolManager)
    (model : Nat → ModelResponse)
    (h0 : (model 0).stop_reason = "tool_use")
    (h1 : (model 1).stop_reason = "tool_use")
    (h2 : (model 2).stop_reason = "tool_use") :
    (generate_response query hist tools (some t) model).result =
      some (extract_text_from_response (model 2)) ∧
    (generate_response query hist tools (some t) model).toolExecs =
      toolCallsOf (model 0).content ++ toolCallsOf (model 1).content ∧
    (textBlocks (model 2).content = [] →
      (generate_response query hist tools (some t) model).result =
        some "Unable to provide a complete response.") := by
  rw [generate_response_tool query hist tools t model h0]
  rw [show MAX_TOOL_ROUNDS = 1 + 1 from rfl]
  have hch := toolLoop_chain t (build_system_content hist)
    (requestTools tools) model 1 1 (model 0)
    [⟨"user", MsgContent.str query⟩,
     ⟨"assistant", MsgContent.blocks (model 0).content⟩]
    (fun j hj => by
      have : j = 0 := by omega
      subst this
      simpa using h1)
  rw [show (1 : Nat) + 1 = 2 from rfl] at hch
  refine ⟨by simp [hch.1], ?_, ?_⟩
  · simp [hch.2.2, modelExecs]
  · intro htb
    have he : extract_text_from_response (model 2) = "Unable to provide a complete response." := by
      simp [extract_text_from_response, htb]
    simp [hch.1, he]

/-- Witness for C8: an always-tool-requesting model without text blocks makes
the run return the fixed fallback string. -/
theorem c8_max_rounds_terminal_witness :
    (modelAlwaysTool 2).stop_reason = "tool_use" ∧
    (generate_response "q" none none (some tOk) modelAlwaysTool).result =
      some "Unable to provide a complete response." :=
  ⟨rfl, (c8_max_rounds_terminal "q" none none tOk modelAlwaysTool rfl rfl rfl).2.2 rfl⟩

/-- C9 (counterexample): with history `HIST123` supplied, the system text of
the initial request is the system prompt followed by the history — the
history is not a prefix of the system text, so it is appended, not
prepended. -/
theorem c9_counterexample :
    ((generate_response "q" (some "HIST123") none none modelEndTurnOk).requests[0]?.map
        Request.system) =
      some (SYSTEM_PROMPT ++ "\n\nPrevious conversation:\n" ++ "HIST123") ∧
    ¬ List.IsPrefix "HIST123".data
        (SYSTEM_PROMPT ++ "\n\nPrevious conversation:\n" ++ "HIST123").data := by
  constructor
  · rfl
  · decide

/-- C9 (amended): the initial history is a single user message holding
exactly the query, and a supplied nonempty conversation history is appended
to the system prompt text (never injected as prior messages). -/
theorem c9_history_appended_amended (query : String) (h : String) (hh : h ≠ "")
    (tools : Option (List ToolDef)) (tm : Option ToolManager)
    (model : Nat → ModelResponse) :
    ∀ r, (generate_response query (some h) tools tm model).requests[0]? = some r →
      r.system = SYSTEM_PROMPT ++ "\n\nPrevious conversation:\n" ++ h ∧
      r.messages = [⟨"user", MsgContent.str query⟩] := by
  intro r hr
  have htr : historyTruthy (some h) = true := by
    simp [historyTruthy]
    exact hh
  have hsys : build_system_content (some h) =
      SYSTEM_PROMPT ++ "\n\nPrevious conversation:\n" ++ h := by
    simp [build_system_content, htr]
  have hr0 : (generate_response query (some h) tools tm model).requests[0]? =
      some (initialRequest query (some h) tools) := by
    cases tm with
    | none => simp [generate_response]
    | some t =>
        by_cases h0 : (model 0).stop_reason = "tool_use"
        · rw [generate_response_tool query (some h) tools t model h0]
          simp
        · simp [generate_response, h0]
  rw [hr0, Option.some.injEq] at hr
  subst hr
  exact ⟨by rw [(initialRequest_fields query (some h) tools).1, hsys],
    (initialRequest_fields query (some h) tools).2⟩

/-- Witness for C9 (amended). -/
theorem c9_history_appended_amended_witness :
    ("HIST123" ≠ "") ∧
    ((generate_response "q" (some "HIST123") none none modelEndTurnOk).requests[0]?.map
        Request.messages) = some [⟨"user", MsgContent.str "q"⟩] := by
  refine ⟨by decide, ?_⟩
  cases h0 : (generate_response "q" (some "HIST123") none none modelEndTurnOk).requests[0]? with
  | none => exact absurd h0 (by decide)
  | some r =>
      have h := c9_history_appended_amended "q" "HIST123" (by decide) none none
        modelEndTurnOk r h0
      simp [h.2]

end Rag
